import Mathlib

/-!
Verification of the task-board backend (Mongoose models in part_001, Express
task controller in part_007) against its natural-language specification.

The JavaScript data model and controller functions are shallowly embedded as
executable Lean definitions:
- MongoDB ObjectIds and timestamps become `Nat`; JS numbers used as column
  positions become `Int`.
- A Mongoose document save is modelled by `bumpIfModified`, the pre-save
  middleware of part_001 lines 379-386: when the document differs from the
  loaded copy and is not new, `version` is incremented and `lastModified`
  refreshed.  In the controller flows every document path is assigned at most
  once before a save, so the set of Mongoose-dirty paths is exactly the set of
  fields whose value changed, and "isModified" coincides with record
  inequality.
- Absent JSON keys / `undefined` become `none`.
- `Math.random()`-driven choice is modelled by a draw parameter `r : Nat`
  indexing the candidate list modulo its length.
- The fresh `randomUUID()` is passed in as a `uuid : String` parameter.
- The `dueDate` field (whose validator is wall-clock relative), the
  `attachments` array and the presentation-only populate steps are not
  modelled; no claim mentions them.
-/

namespace TaskBoard

/-- Task status (part_001 lines 235-243): todo, in-progress, done. -/
inductive Status where
  | todo
  | inProgress
  | done
deriving DecidableEq, Repr

/-- Task priority (part_001 lines 244-252): low, medium, high, urgent. -/
inductive Priority where
  | low
  | medium
  | high
  | urgent
deriving DecidableEq, Repr

/-- A task comment (part_001 lines 320-335). -/
structure Comment where
  text : String
  author : Nat
  createdAt : Nat
deriving DecidableEq, Repr

/-- A task document (part_001 lines 213-352). -/
structure Task where
  id : Nat
  title : String
  description : String
  status : Status
  priority : Priority
  assignedTo : Option Nat
  createdBy : Nat
  tags : List String
  position : Int
  version : Nat
  lastModified : Nat
  lastModifiedBy : Option Nat
  comments : List Comment
  isArchived : Bool
  archivedAt : Option Nat
  archivedBy : Option Nat
deriving DecidableEq, Repr

/-- A user as the controllers read it: id, role string and active flag.
The Mongoose User model file is not among the sources; these are the fields
the task controller and the spec (section 3) rely on. -/
structure User where
  id : Nat
  role : String
  isActive : Bool
deriving DecidableEq, Repr

/-- An activity record (part_001 lines 3-95), restricted to the fields the
claims mention.  `isResolved` defaults to true in the schema;
`clientVersion` and `serverVersion` model the corresponding keys of the
`details` mixed object. -/
structure Activity where
  action : String
  actor : Nat
  target : Option Nat
  conflictId : Option String
  isResolved : Bool
  clientVersion : Option Nat
  serverVersion : Option Nat
deriving DecidableEq, Repr

/-- The persisted board state: the task collection, the user directory
(read-only to the task controller) and the append-only activity log. -/
structure BoardState where
  tasks : List Task
  users : List User
  activities : List Activity
deriving DecidableEq, Repr

/-- Task.findById: first task with the given id. -/
def findTask (st : BoardState) (id : Nat) : Option Task :=
  st.tasks.find? (fun t => decide (t.id = id))

/-- Persisting a saved document: replace the task with the same id. -/
def putTask (tasks : List Task) (t : Task) : List Task :=
  tasks.map (fun u => if u.id = t.id then t else u)

/-- JS truthiness of the optional numeric `version` field of a request body:
an absent field and the number 0 are both falsy. -/
def truthyVersion : Option Nat → Bool
  | none => false
  | some v => decide (v ≠ 0)

/-- task.hasConflict(clientVersion) (part_001 lines 444-447):
`this.version > clientVersion`. -/
def hasConflict (t : Task) (clientVersion : Nat) : Bool :=
  decide (t.version > clientVersion)

/-- The pre-save middleware (part_001 lines 379-386) applied by
document.save() to a document loaded as `orig` and mutated to `cur`: if any
path changed and the document is not new, increment `version` and refresh
`lastModified`. -/
def bumpIfModified (orig cur : Task) (now : Nat) : Task :=
  if cur ≠ orig then { cur with version := cur.version + 1, lastModified := now } else cur

/-- The reserved column names (part_001 lines 222-227). -/
def reservedTitles : List String := ["todo", "in progress", "done"]

/-- Case folding (the toLowerCase calls and the case-insensitive regex
flag), as character-wise lowering of the underlying character list. -/
def lowerChars (s : String) : List Char := s.data.map Char.toLower

/-- Mongoose schema validation run by save (part_001): non-empty title of at
most 200 characters not equal to a column name, description at most 1000,
tags at most 50 characters each, comment texts non-empty and at most 500. -/
def taskSchemaValid (t : Task) : Bool :=
  decide (t.title ≠ "" ∧ t.title.length ≤ 200 ∧
    lowerChars t.title ∉ reservedTitles.map lowerChars ∧
    t.description.length ≤ 1000 ∧ (∀ tag ∈ t.tags, tag.length ≤ 50) ∧
    (∀ c ∈ t.comments, c.text ≠ "" ∧ c.text.length ≤ 500))

/-- Task.validateUniqueTitle (part_001 lines 389-401): no non-archived task
other than `excludeId` has the same title case-insensitively.  The code uses
an anchored case-insensitive regex; regex metacharacters in titles are not
modelled. -/
def validateUniqueTitle (tasks : List Task) (title : String) (excludeId : Option Nat) : Bool :=
  !(tasks.any (fun t => decide (lowerChars t.title = lowerChars title ∧ t.isArchived = false ∧
      excludeId ≠ some t.id)))

/-- An activity record as Activity.logActivity receives it from the
non-conflict call sites: `isResolved` keeps its schema default true and no
conflict fields are set. -/
def mkActivity (action : String) (actor : Nat) (target : Option Nat) : Activity :=
  { action := action, actor := actor, target := target, conflictId := none,
    isResolved := true, clientVersion := none, serverVersion := none }

/-- The `conflict` object of a 409 response body.  `conflictId` models the
presence of a `conflictId` key in that object (none = the key is absent);
`lastModifiedBy` models the presence of a `lastModifiedBy` key, which only
the updateTask payload carries. -/
structure ConflictInfo where
  conflictId : Option String
  clientVersion : Nat
  serverVersion : Nat
  serverTask : Task
  lastModifiedBy : Option (Option Nat)
deriving DecidableEq, Repr

/-- The controller responses, by HTTP outcome. -/
inductive Response where
  /-- 2xx with the task in the body. -/
  | ok (task : Task)
  /-- 2xx with only a message (delete / archive). -/
  | okMessage (msg : String)
  /-- 404. -/
  | notFound
  /-- 409 with a `conflict` payload. -/
  | conflict (info : ConflictInfo)
  /-- 400. -/
  | badRequest (msg : String)
  /-- 403. -/
  | forbidden (msg : String)
  /-- 500 from a catch-all handler. -/
  | internalError (msg : String)
  /-- The NoEligibleUser failure kind of spec section 7.  No controller
  produces it; it exists so that claims naming it can be stated. -/
  | noEligibleUser
deriving DecidableEq, Repr

/-- Modelled from the spec: User.findActiveUsers, called by
Task.findUserWithFewestTasks (part_001 line 415).  The User model file is
absent from the sources; spec section 4.5 takes as input "the set of active
users", so the query returns exactly the users with `isActive`. -/
def findActiveUsers (users : List User) : List User :=
  users.filter (fun u => u.isActive)

/-- The per-user load of the smart-assign scan (part_001 lines 422-431):
count of tasks assigned to the user with status todo or in-progress and not
archived. -/
def countActiveTasks (tasks : List Task) (uid : Nat) : Nat :=
  (tasks.filter (fun t => decide (t.assignedTo = some uid ∧
    (t.status = Status.todo ∨ t.status = Status.inProgress) ∧ t.isArchived = false))).length

/-- Math.min over a spread list of counts (part_001 line 434); the empty
case is unreachable at its call site. -/
def minimumOf : List Nat → Nat
  | [] => 0
  | x :: xs => xs.foldl min x

/-- Task.findUserWithFewestTasks (part_001 lines 411-442): among the active
users, compute each load, keep the users of minimum load and return the one
at a uniformly drawn index (`r` models the Math.random draw; the code picks
index floor(random * length), modelled as `r % length`).  Returns none when
no active user exists, where the code throws. -/
def findUserWithFewestTasks (users : List User) (tasks : List Task) (r : Nat) :
    Option User :=
  let active := findActiveUsers users
  if active.isEmpty then
    none
  else
    let userTaskCounts := active.map (fun u => (u, countActiveTasks tasks u.id))
    let minCount := minimumOf (userTaskCounts.map Prod.snd)
    let usersWithMinTasks := userTaskCounts.filter (fun p => decide (p.2 = minCount))
    (usersWithMinTasks.get? (r % usersWithMinTasks.length)).map Prod.fst

/-- The fields of a create request body after the route validation of the
Joi create schema (stripUnknown strips any `version` key; `status`,
`priority`, `tags` and `position` receive the listed defaults, which agree
with the Mongoose schema defaults). -/
structure CreateInput where
  title : String
  description : String := ""
  status : Status := Status.todo
  priority : Priority := Priority.medium
  assignedTo : Option Nat := none
  tags : List String := []
  position : Int := 0
deriving DecidableEq, Repr

/-- createTask (part_007 lines 385-458): unique-title check, assignee
check when an assignee is supplied, then save of a new document with
`createdBy` and `lastModifiedBy` set to the actor.  The document is new, so
the pre-save middleware does not bump `version`, which keeps its schema
default 1. -/
def createTask (st : BoardState) (input : CreateInput) (actor : Nat) (newId : Nat)
    (now : Nat) : BoardState × Response :=
  if !(validateUniqueTitle st.tasks input.title none) then
    (st, Response.badRequest "A task with this title already exists")
  else if input.assignedTo.any (fun uid =>
      !((st.users.find? (fun u => decide (u.id = uid))).any (fun u => u.isActive))) then
    (st, Response.badRequest "Assigned user not found or inactive")
  else
    let t : Task := {
      id := newId, title := input.title, description := input.description,
      status := input.status, priority := input.priority,
      assignedTo := input.assignedTo, createdBy := actor, tags := input.tags,
      position := input.position, version := 1, lastModified := now,
      lastModifiedBy := some actor, comments := [], isArchived := false,
      archivedAt := none, archivedBy := none }
    if !(taskSchemaValid t) then
      (st, Response.badRequest "Validation error")
    else
      ({ st with tasks := st.tasks ++ [t],
                 activities := st.activities ++ [mkActivity "task_created" actor (some newId)] },
       Response.ok t)

/-- An update request body (the Joi update schema accepts any subset of
these keys; `version` doubles as the optimistic-concurrency check value and,
via Object.assign, as a written field). -/
structure UpdatePatch where
  title : Option String := none
  description : Option String := none
  status : Option Status := none
  priority : Option Priority := none
  assignedTo : Option Nat := none
  tags : Option (List String) := none
  position : Option Int := none
  version : Option Nat := none
deriving DecidableEq, Repr

/-- Object.assign(task, updateData) (part_007 line 568): every key present
in the body overwrites the corresponding document field, including
`version`. -/
def applyPatch (t : Task) (p : UpdatePatch) : Task :=
  { t with
    title := p.title.getD t.title,
    description := p.description.getD t.description,
    status := p.status.getD t.status,
    priority := p.priority.getD t.priority,
    assignedTo := (p.assignedTo.map some).getD t.assignedTo,
    tags := p.tags.getD t.tags,
    position := p.position.getD t.position,
    version := p.version.getD t.version }

/-- The conflict guard shared by updateTask, moveTask, smartAssignTask and
assignTask: `clientVersion && task.hasConflict(clientVersion)`. -/
def conflictGuard (t : Task) (clientVersion : Option Nat) : Bool :=
  truthyVersion clientVersion && hasConflict t (clientVersion.getD 0)

/-- updateTask (part_007 lines 487-630).  On a version conflict it logs a
conflict_detected activity carrying the fresh uuid and answers 409 whose
`conflict` object has no conflictId key; otherwise it checks title
uniqueness and the assignee, applies the body, stamps `lastModifiedBy` and
`lastModified` and saves (the pre-save middleware bumping `version` when
anything changed). -/
def updateTask (st : BoardState) (id : Nat) (p : UpdatePatch) (actor : Nat)
    (uuid : String) (now : Nat) : BoardState × Response :=
  match findTask st id with
  | none => (st, Response.notFound)
  | some task =>
    if task.isArchived then
      (st, Response.notFound)
    else if conflictGuard task p.version then
      let act : Activity := {
        action := "conflict_detected", actor := actor, target := some task.id,
        conflictId := some uuid, isResolved := false,
        clientVersion := p.version, serverVersion := some task.version }
      let info : ConflictInfo := {
        conflictId := none, clientVersion := p.version.getD 0,
        serverVersion := task.version, serverTask := task,
        lastModifiedBy := some task.lastModifiedBy }
      ({ st with activities := st.activities ++ [act] }, Response.conflict info)
    else if p.title.any (fun newTitle => newTitle ≠ "" && newTitle ≠ task.title
        && !(validateUniqueTitle st.tasks newTitle (some id))) then
      (st, Response.badRequest "A task with this title already exists")
    else if p.assignedTo.any (fun uid => some uid ≠ task.assignedTo &&
        !((st.users.find? (fun u => decide (u.id = uid))).any (fun u => u.isActive))) then
      (st, Response.badRequest "Assigned user not found or inactive")
    else
      let cur := { applyPatch task p with lastModifiedBy := some actor, lastModified := now }
      if !(taskSchemaValid cur) then
        (st, Response.badRequest "Validation error")
      else
        let saved := bumpIfModified task cur now
        ({ st with tasks := putTask st.tasks saved,
                   activities := st.activities ++ [mkActivity "task_updated" actor (some id)] },
         Response.ok saved)

/-- moveTask (part_007 lines 633-715): after the conflict guard, set the
task status and position to the requested values (no clamping), save, then
updateMany increments the position of every other non-archived task of the
target column at position at least the requested one.  updateMany does not
run document middleware, so those tasks keep their version. -/
def moveTask (st : BoardState) (id : Nat) (newStatus : Status) (newPos : Int)
    (clientVersion : Option Nat) (actor : Nat) (now : Nat) : BoardState × Response :=
  match findTask st id with
  | none => (st, Response.notFound)
  | some task =>
    if task.isArchived then
      (st, Response.notFound)
    else if conflictGuard task clientVersion then
      let info : ConflictInfo := {
        conflictId := none, clientVersion := clientVersion.getD 0,
        serverVersion := task.version, serverTask := task, lastModifiedBy := none }
      (st, Response.conflict info)
    else
      let cur := { task with status := newStatus, position := newPos,
                             lastModifiedBy := some actor }
      let saved := bumpIfModified task cur now
      let shifted := (putTask st.tasks saved).map (fun t =>
        if decide (t.id ≠ id ∧ t.status = newStatus ∧ t.position ≥ newPos ∧
            t.isArchived = false) then
          { t with position := t.position + 1 }
        else t)
      ({ st with tasks := shifted,
                 activities := st.activities ++ [mkActivity "task_moved" actor (some id)] },
       Response.ok saved)

/-- smartAssignTask (part_007 lines 718-791): after the conflict guard,
delegate to findUserWithFewestTasks; its throw on an empty active-user set
is caught by the catch-all handler, yielding the generic 500. -/
def smartAssignTask (st : BoardState) (id : Nat) (clientVersion : Option Nat)
    (actor : Nat) (r : Nat) (now : Nat) : BoardState × Response :=
  match findTask st id with
  | none => (st, Response.notFound)
  | some task =>
    if task.isArchived then
      (st, Response.notFound)
    else if conflictGuard task clientVersion then
      let info : ConflictInfo := {
        conflictId := none, clientVersion := clientVersion.getD 0,
        serverVersion := task.version, serverTask := task, lastModifiedBy := none }
      (st, Response.conflict info)
    else
      match findUserWithFewestTasks st.users st.tasks r with
      | none => (st, Response.internalError "Error in smart assign")
      | some selectedUser =>
        let cur := { task with assignedTo := some selectedUser.id,
                               lastModifiedBy := some actor }
        let saved := bumpIfModified task cur now
        ({ st with tasks := putTask st.tasks saved,
                   activities := st.activities ++ [mkActivity "smart_assign" actor (some id)] },
         Response.ok saved)

/-- assignTask (part_007 lines 794-869): conflict guard, then the assignee
must exist and be active, then the assignment is saved. -/
def assignTask (st : BoardState) (id : Nat) (assignee : Nat)
    (clientVersion : Option Nat) (actor : Nat) (now : Nat) : BoardState × Response :=
  match findTask st id with
  | none => (st, Response.notFound)
  | some task =>
    if task.isArchived then
      (st, Response.notFound)
    else if conflictGuard task clientVersion then
      let info : ConflictInfo := {
        conflictId := none, clientVersion := clientVersion.getD 0,
        serverVersion := task.version, serverTask := task, lastModifiedBy := none }
      (st, Response.conflict info)
    else if !((st.users.find? (fun u => decide (u.id = assignee))).any (fun u => u.isActive)) then
      (st, Response.badRequest "Assigned user not found or inactive")
    else
      let cur := { task with assignedTo := some assignee, lastModifiedBy := some actor }
      let saved := bumpIfModified task cur now
      ({ st with tasks := putTask st.tasks saved,
                 activities := st.activities ++ [mkActivity "task_assigned" actor (some id)] },
       Response.ok saved)

/-- addComment: the controller (part_007 lines 872-921) finds the task and
calls the document method task.addComment (part_001 lines 465-473), which
pushes the comment and saves; the pre-save middleware sees the modified
comments array.  A validation failure surfaces through the catch-all 500. -/
def addComment (st : BoardState) (id : Nat) (text : String) (actor : Nat)
    (now : Nat) : BoardState × Response :=
  match findTask st id with
  | none => (st, Response.notFound)
  | some task =>
    if task.isArchived then
      (st, Response.notFound)
    else
      let cur := { task with comments := task.comments ++ [{
        text := text, author := actor, createdAt := now }] }
      if !(taskSchemaValid cur) then
        (st, Response.internalError "Error adding comment")
      else
        let saved := bumpIfModified task cur now
        ({ st with tasks := putTask st.tasks saved,
                   activities := st.activities ++ [mkActivity "task_commented" actor (some id)] },
         Response.ok saved)

/-- deleteTask (part_007 lines 924-977): only the creator or an admin may
hard-delete; the logged activity carries no target (the document is gone). -/
def deleteTask (st : BoardState) (id : Nat) (actor : User) : BoardState × Response :=
  match findTask st id with
  | none => (st, Response.notFound)
  | some task =>
    if task.isArchived then
      (st, Response.notFound)
    else if task.createdBy ≠ actor.id && actor.role ≠ "admin" then
      (st, Response.forbidden "You can only delete tasks you created")
    else
      ({ st with tasks := st.tasks.filter (fun t => decide (t.id ≠ id)),
                 activities := st.activities ++ [mkActivity "task_deleted" actor.id none] },
       Response.okMessage "Task deleted successfully")

/-- archiveTask (part_007 lines 980-1019): no authorization check; the
document method task.archive (part_001 lines 476-481) sets the archive
fields and saves (the pre-save middleware bumps version). -/
def archiveTask (st : BoardState) (id : Nat) (actor : User) (now : Nat) :
    BoardState × Response :=
  match findTask st id with
  | none => (st, Response.notFound)
  | some task =>
    if task.isArchived then
      (st, Response.notFound)
    else
      let cur := { task with isArchived := true, archivedAt := some now,
                             archivedBy := some actor.id }
      let saved := bumpIfModified task cur now
      ({ st with tasks := putTask st.tasks saved,
                 activities := st.activities ++ [mkActivity "task_archived" actor.id (some id)] },
       Response.okMessage "Task archived successfully")

/-- The position values of the non-archived tasks of one status column, in
collection order. -/
def columnPositions (st : BoardState) (s : Status) : List Int :=
  (st.tasks.filter (fun t => decide (t.status = s ∧ t.isArchived = false))).map
    (fun t => t.position)

/-- The 409 `conflict` body updateTask answers with (part_007 lines
525-533): the object literal carries clientVersion, serverVersion,
serverTask and lastModifiedBy and has no conflictId key. -/
def updateConflictBody (t : Task) (v : Nat) : ConflictInfo :=
  { conflictId := none, clientVersion := v, serverVersion := t.version,
    serverTask := t, lastModifiedBy := some t.lastModifiedBy }

/-- The conflict_detected activity updateTask logs before answering 409
(part_007 lines 502-523): fresh uuid as conflictId, isResolved false, the
two versions in the details. -/
def conflictDetectedActivity (actor : Nat) (t : Task) (uuid : String)
    (v : Option Nat) : Activity :=
  { action := "conflict_detected", actor := actor, target := some t.id,
    conflictId := some uuid, isResolved := false, clientVersion := v,
    serverVersion := some t.version }

/-! Concrete fixtures used by the counterexamples and witnesses. -/

/-- A plain non-archived todo task used as the base of the fixtures. -/
def baseTask : Task :=
  { id := 1, title := "Alpha", description := "", status := Status.todo,
    priority := Priority.medium, assignedTo := none, createdBy := 5, tags := [],
    position := 0, version := 1, lastModified := 10, lastModifiedBy := some 5,
    comments := [], isArchived := false, archivedAt := none, archivedBy := none }

/-- A non-admin user who is not the creator of `baseTask`. -/
def strangerUser : User := { id := 9, role := "member", isActive := true }

/-- The stale-update fixture: the server task is at version 4, last modified
by user 7. -/
def tStale : Task := { baseTask with version := 4, lastModifiedBy := some 7 }

/-- Board holding only `tStale`. -/
def stStale : BoardState := { tasks := [tStale], users := [], activities := [] }

/-- A patch carrying only the stale known version 3. -/
def pStale : UpdatePatch := { version := some 3 }

/-- The no-op-move fixture: a version-3 task last modified by user 5. -/
def tNoOp : Task := { baseTask with version := 3 }

/-- Board holding only `tNoOp`. -/
def stNoOp : BoardState := { tasks := [tNoOp], users := [], activities := [] }

/-- Board holding only `baseTask`, for the comment fixture. -/
def stComment : BoardState := { tasks := [baseTask], users := [], activities := [] }

/-- Two-task todo column [Alpha@0, Beta@1] for the same-column move. -/
def stTwoCol : BoardState :=
  { tasks := [baseTask,
      { baseTask with id := 2, title := "Beta", position := 1 }],
    users := [], activities := [] }

/-- Three-task todo column [T1@0, T2@1, T3@2], all at version 1. -/
def stThreeCol : BoardState :=
  { tasks := [{ baseTask with id := 1, title := "T1", position := 0 },
      { baseTask with id := 2, title := "T2", position := 1 },
      { baseTask with id := 3, title := "T3", position := 2 }],
    users := [], activities := [] }

/-- Create-into-non-empty-column fixture: the todo column already holds
`baseTask` at position 0 and user 5 exists and is active. -/
def stCreate : BoardState :=
  { tasks := [baseTask], users := [{ id := 5, role := "member", isActive := true }],
    activities := [] }

/-- The task the create fixture produces for input title Ship release. -/
def tShipRelease : Task :=
  { id := 2, title := "Ship release", description := "", status := Status.todo,
    priority := Priority.medium, assignedTo := none, createdBy := 5, tags := [],
    position := 0, version := 1, lastModified := 50, lastModifiedBy := some 5,
    comments := [], isArchived := false, archivedAt := none, archivedBy := none }

/-- No-active-user fixture: the only user is inactive. -/
def stNoActive : BoardState :=
  { tasks := [baseTask], users := [{ id := 7, role := "member", isActive := false }],
    activities := [] }

/-- A successful-update fixture for the version-growth witness: version-2
task, patch sending known version 2 and a new title. -/
def tUpd : Task := { baseTask with version := 2 }

/-- Board holding only `tUpd`. -/
def stUpd : BoardState := { tasks := [tUpd], users := [], activities := [] }

/-- Patch renaming the task and echoing the current version 2. -/
def pUpd : UpdatePatch := { title := some "Gamma", version := some 2 }

/-- The document the successful-update witness saves: renamed, version 3. -/
def tUpdSaved : Task :=
  { baseTask with title := "Gamma", version := 3, lastModified := 100, lastModifiedBy := some 9 }

/-- The moved document of the two-task column witness. -/
def tTwoSaved : Task := { baseTask with position := 1, version := 2, lastModified := 30 }

/-- Board with one task and one active member, for assignment witnesses. -/
def stAssign : BoardState := { tasks := [baseTask], users := [strangerUser], activities := [] }

/-- The document saved when user 9 is assigned at time 100. -/
def tAssignSaved : Task := { baseTask with assignedTo := some 9, version := 2, lastModified := 100 }

/-- The zero-load user of the smart-assign witness. -/
def demoMinUser : User := { id := 8, role := "member", isActive := true }

/-- Two active users: user 8 with no active task, user 9 with one. -/
def demoUsers : List User := [demoMinUser, strangerUser]

/-- One non-archived todo task assigned to user 9. -/
def demoTasks : List Task := [{ baseTask with assignedTo := some 9 }]

/-! Helper lemmas shared by the claim theorems. -/

theorem foldl_min_le_init (l : List Nat) (a : Nat) : l.foldl min a ≤ a := by
  induction l generalizing a with
  | nil => simp
  | cons x xs ih =>
    calc (x :: xs).foldl min a = xs.foldl min (min a x) := rfl
    _ ≤ min a x := ih (min a x)
    _ ≤ a := min_le_left a x

theorem foldl_min_le_mem (l : List Nat) (a : Nat) : ∀ x ∈ l, l.foldl min a ≤ x := by
  induction l generalizing a with
  | nil => simp
  | cons y ys ih =>
    intro x hx
    rcases List.mem_cons.mp hx with h | h
    · subst h
      calc (x :: ys).foldl min a = ys.foldl min (min a x) := rfl
      _ ≤ min a x := foldl_min_le_init ys (min a x)
      _ ≤ x := min_le_right a x
    · exact ih (min a y) x h

theorem foldl_min_eq_or_mem (l : List Nat) (a : Nat) :
    l.foldl min a = a ∨ l.foldl min a ∈ l := by
  induction l generalizing a with
  | nil => left; rfl
  | cons y ys ih =>
    have hstep : (y :: ys).foldl min a = ys.foldl min (min a y) := rfl
    rcases ih (min a y) with h | h
    · rcases min_choice a y with hm | hm
      · left; rw [hstep, h, hm]
      · right; rw [hstep, h, hm]; exact List.mem_cons_self y ys
    · right; rw [hstep]; exact List.mem_cons_of_mem y h

theorem minimumOf_le_of_mem {l : List Nat} {x : Nat} (hx : x ∈ l) :
    minimumOf l ≤ x := by
  cases l with
  | nil => cases hx
  | cons y ys =>
    rcases List.mem_cons.mp hx with h | h
    · subst h; exact foldl_min_le_init ys x
    · exact foldl_min_le_mem ys y x h

theorem minimumOf_mem {l : List Nat} (hl : l ≠ []) : minimumOf l ∈ l := by
  cases l with
  | nil => exact absurd rfl hl
  | cons y ys =>
    rcases foldl_min_eq_or_mem ys y with h | h
    · rw [show minimumOf (y :: ys) = ys.foldl min y from rfl, h]
      exact List.mem_cons_self y ys
    · exact List.mem_cons_of_mem y h

theorem findTask_id {st : BoardState} {id : Nat} {t : Task}
    (h : findTask st id = some t) : t.id = id := by
  have := List.find?_some h
  exact of_decide_eq_true this

theorem findTask_mem {st : BoardState} {id : Nat} {t : Task}
    (h : findTask st id = some t) : t ∈ st.tasks :=
  List.mem_of_find?_eq_some h

theorem conflictGuard_of_falsy {t : Task} {cv : Option Nat}
    (h : cv = none ∨ cv = some 0) : conflictGuard t cv = false := by
  rcases h with h | h <;> subst h <;> simp [conflictGuard, truthyVersion]


theorem updateTask_ok_elim {st : BoardState} {id : Nat} {p : UpdatePatch} {actor : Nat}
    {uuid : String} {now : Nat} {t t' : Task}
    (hfind : findTask st id = some t)
    (hok : (updateTask st id p actor uuid now).2 = Response.ok t') :
    t.isArchived = false ∧ conflictGuard t p.version = false ∧
    t' = bumpIfModified t
      { applyPatch t p with lastModifiedBy := some actor, lastModified := now } now := by
  unfold updateTask at hok
  rw [hfind] at hok
  dsimp only at hok
  by_cases ha : t.isArchived
  · simp [ha] at hok
  · simp only [Bool.not_eq_true] at ha
    rw [ha] at hok
    simp only [Bool.false_eq_true, if_false] at hok
    by_cases hg : conflictGuard t p.version
    · simp [hg] at hok
    · simp only [Bool.not_eq_true] at hg
      rw [hg] at hok
      simp only [Bool.false_eq_true, if_false] at hok
      split at hok
      · simp at hok
      · split at hok
        · simp at hok
        · split at hok
          · simp at hok
          · simp only [Prod.snd] at hok
            refine ⟨ha, hg, ?_⟩
            exact (Response.ok.inj hok).symm

theorem moveTask_ok_elim {st : BoardState} {id : Nat} {s : Status} {pos : Int}
    {cv : Option Nat} {actor now : Nat} {t t' : Task}
    (hfind : findTask st id = some t)
    (hok : (moveTask st id s pos cv actor now).2 = Response.ok t') :
    t.isArchived = false ∧ conflictGuard t cv = false ∧
    t' = bumpIfModified t { t with status := s, position := pos, lastModifiedBy := some actor } now := by
  unfold moveTask at hok
  rw [hfind] at hok
  dsimp only at hok
  by_cases ha : t.isArchived
  · simp [ha] at hok
  · simp only [Bool.not_eq_true] at ha
    rw [ha] at hok
    simp only [Bool.false_eq_true, if_false] at hok
    by_cases hg : conflictGuard t cv
    · simp [hg] at hok
    · simp only [Bool.not_eq_true] at hg
      rw [hg] at hok
      simp only [Bool.false_eq_true, if_false] at hok
      refine ⟨ha, hg, ?_⟩
      rw [ha]
      exact (Response.ok.inj hok).symm

theorem moveTask_noConflict_eq (st : BoardState) (id : Nat) (s : Status) (pos : Int)
    (cv : Option Nat) (actor now : Nat) (t : Task)
    (hfind : findTask st id = some t) (ha : t.isArchived = false)
    (hg : conflictGuard t cv = false) :
    moveTask st id s pos cv actor now =
      ({ st with
          tasks := (putTask st.tasks (bumpIfModified t
              { t with status := s, position := pos, lastModifiedBy := some actor } now)).map
            (fun u =>
              if decide (u.id ≠ id ∧ u.status = s ∧ u.position ≥ pos ∧ u.isArchived = false)
              then { u with position := u.position + 1 } else u),
          activities := st.activities ++ [mkActivity "task_moved" actor (some id)] },
       Response.ok (bumpIfModified t
          { t with status := s, position := pos, lastModifiedBy := some actor } now)) := by
  unfold moveTask
  rw [hfind]
  dsimp only
  rw [ha, hg]
  simp

theorem assignTask_ok_elim {st : BoardState} {id assignee : Nat} {cv : Option Nat}
    {actor now : Nat} {t t' : Task}
    (hfind : findTask st id = some t)
    (hok : (assignTask st id assignee cv actor now).2 = Response.ok t') :
    t.isArchived = false ∧ conflictGuard t cv = false ∧
    t' = bumpIfModified t { t with assignedTo := some assignee, lastModifiedBy := some actor } now := by
  unfold assignTask at hok
  rw [hfind] at hok
  dsimp only at hok
  by_cases ha : t.isArchived
  · simp [ha] at hok
  · simp only [Bool.not_eq_true] at ha
    rw [ha] at hok
    simp only [Bool.false_eq_true, if_false] at hok
    by_cases hg : conflictGuard t cv
    · simp [hg] at hok
    · simp only [Bool.not_eq_true] at hg
      rw [hg] at hok
      simp only [Bool.false_eq_true, if_false] at hok
      split at hok
      · simp at hok
      · simp only [Prod.snd] at hok
        refine ⟨ha, hg, ?_⟩
        rw [ha]
        exact (Response.ok.inj hok).symm

theorem smartAssignTask_ok_elim {st : BoardState} {id : Nat} {cv : Option Nat}
    {actor r now : Nat} {t t' : Task}
    (hfind : findTask st id = some t)
    (hok : (smartAssignTask st id cv actor r now).2 = Response.ok t') :
    t.isArchived = false ∧ conflictGuard t cv = false ∧
    ∃ sel, findUserWithFewestTasks st.users st.tasks r = some sel ∧
      t' = bumpIfModified t { t with assignedTo := some sel.id, lastModifiedBy := some actor } now := by
  unfold smartAssignTask at hok
  rw [hfind] at hok
  dsimp only at hok
  by_cases ha : t.isArchived
  · simp [ha] at hok
  · simp only [Bool.not_eq_true] at ha
    rw [ha] at hok
    simp only [Bool.false_eq_true, if_false] at hok
    by_cases hg : conflictGuard t cv
    · simp [hg] at hok
    · simp only [Bool.not_eq_true] at hg
      rw [hg] at hok
      simp only [Bool.false_eq_true, if_false] at hok
      cases hf : findUserWithFewestTasks st.users st.tasks r with
      | none => rw [hf] at hok; simp at hok
      | some sel =>
        rw [hf] at hok
        simp only [Prod.snd] at hok
        refine ⟨ha, hg, sel, rfl, ?_⟩
        rw [ha]
        exact (Response.ok.inj hok).symm

theorem createTask_ok_elim {st : BoardState} {input : CreateInput} {actor newId now : Nat}
    {t' : Task}
    (hok : (createTask st input actor newId now).2 = Response.ok t') :
    t' = { id := newId, title := input.title, description := input.description,
            status := input.status, priority := input.priority,
            assignedTo := input.assignedTo, createdBy := actor, tags := input.tags,
            position := input.position, version := 1, lastModified := now,
            lastModifiedBy := some actor, comments := [], isArchived := false,
            archivedAt := none, archivedBy := none } := by
  unfold createTask at hok
  dsimp only at hok
  split at hok
  · simp at hok
  · split at hok
    · simp at hok
    · split at hok
      · simp at hok
      · simp only [Prod.snd] at hok
        exact (Response.ok.inj hok).symm

theorem updateTask_conflict_eq (st : BoardState) (id : Nat) (p : UpdatePatch)
    (actor : Nat) (uuid : String) (now : Nat) (t : Task) (v : Nat)
    (hfind : findTask st id = some t) (harch : t.isArchived = false)
    (hv : p.version = some v) (hv1 : 1 ≤ v) (hlt : v < t.version) :
    updateTask st id p actor uuid now =
      ({ st with activities := st.activities ++ [conflictDetectedActivity actor t uuid p.version] },
       Response.conflict (updateConflictBody t v)) := by
  have hg : conflictGuard t p.version = true := by
    simp only [conflictGuard, truthyVersion, hasConflict, hv, Bool.and_eq_true,
      decide_eq_true_eq, Option.getD_some]
    omega
  unfold updateTask
  rw [hfind]
  dsimp only
  rw [harch]
  simp only [Bool.false_eq_true, if_false, hg, if_true]
  simp [conflictDetectedActivity, updateConflictBody, hv]

theorem bumpIfModified_id (orig cur : Task) (now : Nat) :
    (bumpIfModified orig cur now).id = cur.id := by
  unfold bumpIfModified
  split
  · rfl
  · rfl

theorem bumpIfModified_position (orig cur : Task) (now : Nat) :
    (bumpIfModified orig cur now).position = cur.position := by
  unfold bumpIfModified
  split
  · rfl
  · rfl

theorem bumpIfModified_status (orig cur : Task) (now : Nat) :
    (bumpIfModified orig cur now).status = cur.status := by
  unfold bumpIfModified
  split
  · rfl
  · rfl

theorem bumpIfModified_version_ge (orig cur : Task) (now : Nat) :
    cur.version ≤ (bumpIfModified orig cur now).version := by
  unfold bumpIfModified
  split
  · exact Nat.le_succ cur.version
  · exact Nat.le_refl cur.version

theorem bumpIfModified_version_eq_iff (orig cur : Task) (now : Nat) :
    (bumpIfModified orig cur now).version = cur.version ↔ cur = orig := by
  unfold bumpIfModified
  split
  · rename_i h
    constructor
    · intro habs
      exact absurd habs (Nat.succ_ne_self cur.version)
    · intro hc
      exact absurd hc h
  · rename_i h
    simp only [ne_eq, not_not] at h
    exact iff_of_true rfl h

/-- Claim C1 (corrected).  When updateTask is called with a supplied
knownVersion v (with 1 <= v, as the route validation guarantees for every
version field a client can send) that is strictly below the task's current
version, the operation fails with 409 Conflict; the `conflict` payload
carries clientVersion, serverVersion, serverTask and lastModifiedBy but no
conflictId; the fresh UUID instead goes on the recorded conflict_detected
activity, which has isResolved = false; the task collection is unchanged.
The original claim placed the fresh conflictId inside the failure payload,
which the code does not do. -/
theorem updateTask_staleVersion_conflict (st : BoardState) (id : Nat) (p : UpdatePatch)
    (actor : Nat) (uuid : String) (now : Nat) (t : Task) (v : Nat)
    (hfind : findTask st id = some t) (harch : t.isArchived = false)
    (hv : p.version = some v) (hv1 : 1 ≤ v) (hlt : v < t.version) :
    (updateTask st id p actor uuid now).2 = Response.conflict (updateConflictBody t v) ∧
    (updateConflictBody t v).conflictId = none ∧
    (updateConflictBody t v).clientVersion = v ∧
    (updateConflictBody t v).serverVersion = t.version ∧
    (updateConflictBody t v).serverTask = t ∧
    (updateConflictBody t v).lastModifiedBy = some t.lastModifiedBy ∧
    (updateTask st id p actor uuid now).1.tasks = st.tasks ∧
    (updateTask st id p actor uuid now).1.activities =
      st.activities ++ [conflictDetectedActivity actor t uuid (some v)] ∧
    (conflictDetectedActivity actor t uuid (some v)).action = "conflict_detected" ∧
    (conflictDetectedActivity actor t uuid (some v)).isResolved = false ∧
    (conflictDetectedActivity actor t uuid (some v)).conflictId = some uuid := by
  have h := updateTask_conflict_eq st id p actor uuid now t v hfind harch hv hv1 hlt
  rw [hv] at h
  exact ⟨by rw [h], rfl, rfl, rfl, rfl, rfl, by rw [h], by rw [h], rfl, rfl, rfl⟩

/-- Witness for C1 at the stale fixture: server version 4, client version
3; the conflict is raised and the logged activity carries the fresh uuid
with isResolved = false. -/
theorem updateTask_staleVersion_conflict_witness :
    (updateTask stStale 1 pStale 9 "fresh-uuid" 100).2 =
      Response.conflict (updateConflictBody tStale 3) ∧
    (conflictDetectedActivity 9 tStale "fresh-uuid" (some 3)).isResolved = false ∧
    (conflictDetectedActivity 9 tStale "fresh-uuid" (some 3)).conflictId = some "fresh-uuid" :=
  ⟨(updateTask_staleVersion_conflict stStale 1 pStale 9 "fresh-uuid" 100 tStale 3
      rfl rfl rfl (by decide) (by decide)).1,
   (updateTask_staleVersion_conflict stStale 1 pStale 9 "fresh-uuid" 100 tStale 3
      rfl rfl rfl (by decide) (by decide)).2.2.2.2.2.2.2.2.2.1,
   (updateTask_staleVersion_conflict stStale 1 pStale 9 "fresh-uuid" 100 tStale 3
      rfl rfl rfl (by decide) (by decide)).2.2.2.2.2.2.2.2.2.2⟩

/-- Counterexample to C1 as stated: at server version 4 and client version
3 the call does fail with Conflict, but the conflict payload's conflictId
is none - no fresh UUID is attached to the failure payload. -/
theorem updateTask_conflictId_missing_counterexample :
    (updateTask stStale 1 pStale 9 "fresh-uuid" 100).2 =
      Response.conflict (updateConflictBody tStale 3) ∧
    (updateConflictBody tStale 3).conflictId = none :=
  ⟨rfl, rfl⟩

end TaskBoard
namespace TaskBoard

/-- Claim C2 (corrected).  Version growth per successful operation: for
updateTask whose patch version field, if present, is at least 1 (what route
validation admits) and whose save time differs from the stored
lastModified, the version strictly increases; for moveTask and assignTask
the version never decreases and increases exactly when the call changes
some stored field (status/position/assignee or lastModifiedBy); for
smartAssignTask it never decreases.  The original claim - strict increase
for every successful mutation - fails on no-op moves and assigns, which
succeed without bumping. -/
theorem version_growth :
    (∀ (st : BoardState) (id : Nat) (p : UpdatePatch) (actor : Nat) (uuid : String)
        (now : Nat) (t t' : Task),
      findTask st id = some t → now ≠ t.lastModified →
      (p.version = none ∨ ∃ v, p.version = some v ∧ 1 ≤ v) →
      (updateTask st id p actor uuid now).2 = Response.ok t' →
      t.version < t'.version) ∧
    (∀ (st : BoardState) (id : Nat) (s : Status) (pos : Int) (cv : Option Nat)
        (actor now : Nat) (t t' : Task),
      findTask st id = some t →
      (moveTask st id s pos cv actor now).2 = Response.ok t' →
      t.version ≤ t'.version ∧
        (t'.version = t.version ↔ s = t.status ∧ pos = t.position ∧ some actor = t.lastModifiedBy)) ∧
    (∀ (st : BoardState) (id a : Nat) (cv : Option Nat) (actor now : Nat) (t t' : Task),
      findTask st id = some t →
      (assignTask st id a cv actor now).2 = Response.ok t' →
      t.version ≤ t'.version ∧
        (t'.version = t.version ↔ some a = t.assignedTo ∧ some actor = t.lastModifiedBy)) ∧
    (∀ (st : BoardState) (id : Nat) (cv : Option Nat) (actor r now : Nat) (t t' : Task),
      findTask st id = some t →
      (smartAssignTask st id cv actor r now).2 = Response.ok t' →
      t.version ≤ t'.version) := by
  refine ⟨?_, ?_, ?_, ?_⟩
  · intro st id p actor uuid now t t' hfind hnow hv hok
    obtain ⟨ha, hg, ht'⟩ := updateTask_ok_elim hfind hok
    have hne : ({ applyPatch t p with lastModifiedBy := some actor, lastModified := now } : Task) ≠ t := by
      intro h
      exact hnow (congrArg Task.lastModified h)
    have hver : t'.version = (applyPatch t p).version + 1 := by
      rw [ht']
      unfold bumpIfModified
      rw [if_pos hne]
    rcases hv with hnone | ⟨v, hsome, hv1⟩
    · have hsame : (applyPatch t p).version = t.version := by
        unfold applyPatch
        rw [hnone]
        rfl
      rw [hver, hsame]
      omega
    · rw [hsome] at hg
      have hle : t.version ≤ v := by
        by_contra hgt
        push_neg at hgt
        have hcg : conflictGuard t (some v) = true := by
          simp only [conflictGuard, truthyVersion, hasConflict, Option.getD_some,
            Bool.and_eq_true, decide_eq_true_eq]
          omega
        rw [hcg] at hg
        simp at hg
      have hv' : (applyPatch t p).version = v := by
        unfold applyPatch
        rw [hsome]
        rfl
      rw [hver, hv']
      omega
  · intro st id s pos cv actor now t t' hfind hok
    obtain ⟨ha, hg, ht'⟩ := moveTask_ok_elim hfind hok
    constructor
    · rw [ht']
      exact bumpIfModified_version_ge t { t with status := s, position := pos, lastModifiedBy := some actor } now
    · rw [ht']
      have hiff : (bumpIfModified t { t with status := s, position := pos, lastModifiedBy := some actor } now).version = t.version ↔ ({ t with status := s, position := pos, lastModifiedBy := some actor } : Task) = t :=
        bumpIfModified_version_eq_iff t { t with status := s, position := pos, lastModifiedBy := some actor } now
      rw [hiff]
      constructor
      · intro h
        exact ⟨congrArg Task.status h, congrArg Task.position h, congrArg Task.lastModifiedBy h⟩
      · rintro ⟨hs, hp, hl⟩
        rw [hs, hp, hl]
  · intro st id a cv actor now t t' hfind hok
    obtain ⟨ha, hg, ht'⟩ := assignTask_ok_elim hfind hok
    constructor
    · rw [ht']
      exact bumpIfModified_version_ge t { t with assignedTo := some a, lastModifiedBy := some actor } now
    · rw [ht']
      have hiff : (bumpIfModified t { t with assignedTo := some a, lastModifiedBy := some actor } now).version = t.version ↔ ({ t with assignedTo := some a, lastModifiedBy := some actor } : Task) = t :=
        bumpIfModified_version_eq_iff t { t with assignedTo := some a, lastModifiedBy := some actor } now
      rw [hiff]
      constructor
      · intro h
        exact ⟨congrArg Task.assignedTo h, congrArg Task.lastModifiedBy h⟩
      · rintro ⟨hs, hl⟩
        rw [hs, hl]
  · intro st id cv actor r now t t' hfind hok
    obtain ⟨ha, hg, sel, hsel, ht'⟩ := smartAssignTask_ok_elim hfind hok
    rw [ht']
    exact bumpIfModified_version_ge t { t with assignedTo := some sel.id, lastModifiedBy := some actor } now

/-- Witness for C2: one successful call per guarded operation.  The update
on the renamed task moves the version from 2 to 3; the no-op move keeps it;
assign and smart-assign never lower it. -/
theorem version_growth_witness :
    tUpd.version < tUpdSaved.version ∧
    tNoOp.version ≤ tNoOp.version ∧
    baseTask.version ≤ tAssignSaved.version ∧
    baseTask.version ≤ tAssignSaved.version :=
  ⟨version_growth.1 stUpd 1 pUpd 9 "u" 100 tUpd tUpdSaved rfl (by decide)
      (Or.inr ⟨2, rfl, by decide⟩) rfl,
   (version_growth.2.1 stNoOp 1 Status.todo 0 (some 3) 5 200 tNoOp tNoOp rfl rfl).1,
   (version_growth.2.2.1 stAssign 1 9 none 5 100 baseTask tAssignSaved rfl rfl).1,
   version_growth.2.2.2 stAssign 1 none 5 0 100 baseTask tAssignSaved rfl rfl⟩

/-- Counterexample to C2 as stated: a moveTask call that repeats the task's
current status and position succeeds (200, task returned) yet leaves the
version at 3, so the version did not strictly increase. -/
theorem version_growth_counterexample :
    (moveTask stNoOp 1 Status.todo 0 (some 3) 5 200).2 = Response.ok tNoOp ∧
    (moveTask stNoOp 1 Status.todo 0 (some 3) 5 200).1.tasks.map Task.version = [3] ∧
    tNoOp.version = 3 ∧ ¬ (3 : Nat) < 3 :=
  ⟨rfl, rfl, rfl, by decide⟩

/-- Claim C3 (corrected).  A successful addComment on a non-archived task
appends the comment and increments the version by exactly one (the save of
the modified comments array runs the pre-save middleware), refreshing
lastModified; every other field is unchanged.  The original claim said the
version stays equal, which the code contradicts. -/
theorem addComment_bumps_version (st : BoardState) (id : Nat) (text : String)
    (actor now : Nat) (t : Task)
    (hfind : findTask st id = some t) (harch : t.isArchived = false)
    (hvalid : taskSchemaValid
      { t with comments := t.comments ++ [{ text := text, author := actor, createdAt := now }] } = true) :
    addComment st id text actor now =
      ({ st with
          tasks := putTask st.tasks
            { t with comments := t.comments ++ [{ text := text, author := actor, createdAt := now }],
                     version := t.version + 1, lastModified := now },
          activities := st.activities ++ [mkActivity "task_commented" actor (some id)] },
       Response.ok
        { t with comments := t.comments ++ [{ text := text, author := actor, createdAt := now }],
                 version := t.version + 1, lastModified := now }) := by
  unfold addComment
  rw [hfind]
  dsimp only
  rw [harch] at hvalid ⊢
  simp only [Bool.false_eq_true, if_false]
  rw [hvalid]
  simp only [Bool.not_true, Bool.false_eq_true, if_false]
  have hne : ({ t with
      comments := t.comments ++ [{ text := text, author := actor, createdAt := now }],
      isArchived := false } : Task) ≠ t := by
    intro h
    have hlen := congrArg (fun x => x.comments.length) h
    simp at hlen
  unfold bumpIfModified
  rw [if_pos hne]

/-- Witness for C3: commenting on the version-1 base task yields version 2. -/
theorem addComment_bumps_version_witness :
    (addComment stComment 1 "hi" 9 20).2 =
      Response.ok { baseTask with comments := [{ text := "hi", author := 9, createdAt := 20 }],
                                  version := 2, lastModified := 20 } :=
  congrArg Prod.snd (addComment_bumps_version stComment 1 "hi" 9 20 baseTask rfl rfl (by decide))

/-- Counterexample to C3 as stated: commenting on the version-1 base task
leaves the stored task at version 2, not 1. -/
theorem addComment_version_counterexample :
    baseTask.version = 1 ∧
    (addComment stComment 1 "hi" 9 20).1.tasks.map Task.version = [2] ∧
    (2 : Nat) ≠ 1 :=
  ⟨rfl, rfl, by decide⟩

/-- Claim C5 (corrected).  For todo = [T1@0, T2@1, T3@2], move(T3, todo, 0)
produces todo = [T3@0, T1@1, T2@2], and T3's version increases by exactly
one while T1 and T2 keep version 1: the renumbering updateMany bypasses the
document middleware, so their versions do not bump as the original claim
required. -/
theorem moveThreeCol_result :
    (moveTask stThreeCol 3 Status.todo 0 (some 1) 5 40).1.tasks.map
      (fun t => (t.id, t.position, t.version)) = [(1, 1, 1), (2, 2, 1), (3, 0, 2)] ∧
    (moveTask stThreeCol 3 Status.todo 0 (some 1) 5 40).2 =
      Response.ok { baseTask with id := 3, title := "T3", position := 0, version := 2, lastModified := 40 } :=
  ⟨rfl, rfl⟩

/-- Counterexample to C5 as stated: after the move, T1 (id 1) still has
version 1, not 1 + 1, so not all three versions bumped by one. -/
theorem moveThreeCol_counterexample :
    ((moveTask stThreeCol 3 Status.todo 0 (some 1) 5 40).1.tasks.find?
      (fun t => decide (t.id = 1))).map Task.version = some 1 ∧
    some (1 : Nat) ≠ some (1 + 1) :=
  ⟨rfl, by decide⟩

/-- Claim C6 (corrected).  Every successful createTask stamps createdBy and
lastModifiedBy with the acting user and version 1, and sets position to the
position of the validated input (which defaults to 0); it never computes
max(position in target column) + 1 as the original claim stated. -/
theorem createTask_fields (st : BoardState) (input : CreateInput) (actor newId now : Nat)
    (t' : Task) (hok : (createTask st input actor newId now).2 = Response.ok t') :
    t'.createdBy = actor ∧ t'.version = 1 ∧ t'.position = input.position ∧
    t'.lastModifiedBy = some actor := by
  have h := createTask_ok_elim hok
  rw [h]
  exact ⟨rfl, rfl, rfl, rfl⟩

/-- Witness for C6: creating Ship release on a board whose todo column
already has a task at position 0 still yields position 0. -/
theorem createTask_fields_witness :
    tShipRelease.createdBy = 5 ∧ tShipRelease.version = 1 ∧
    tShipRelease.position = ({ title := "Ship release" } : CreateInput).position ∧
    tShipRelease.lastModifiedBy = some 5 :=
  createTask_fields stCreate { title := "Ship release" } 5 2 50 tShipRelease rfl

/-- Counterexample to C6 as stated: the todo column already holds a task at
position 0, so max+1 would be 1, yet the created task has position 0. -/
theorem createTask_position_counterexample :
    baseTask.status = Status.todo ∧ baseTask.position = 0 ∧
    (createTask stCreate { title := "Ship release" } 5 2 50).2 = Response.ok tShipRelease ∧
    tShipRelease.position = 0 ∧ (0 : Int) ≠ 0 + 1 :=
  ⟨rfl, rfl, rfl, rfl, by decide⟩

/-- Claim C4 (corrected).  What a successful moveTask really does: the
moved task gets exactly the requested toPosition (no clamping to [0, n])
and status; every other non-archived task of the target column at position
at least toPosition is shifted up by one; every other task - including the
whole source column - is untouched, so no renumbering keeps the columns
permutations of 0..n-1, contrary to the original claim. -/
theorem moveTask_renumber (st : BoardState) (id : Nat) (s : Status) (pos : Int)
    (cv : Option Nat) (actor now : Nat) (t t' : Task)
    (hfind : findTask st id = some t)
    (hok : (moveTask st id s pos cv actor now).2 = Response.ok t') :
    t'.position = pos ∧ t'.status = s ∧
    (∀ u ∈ st.tasks, u.id ≠ id → u.status = s → u.isArchived = false → pos ≤ u.position →
      { u with position := u.position + 1 } ∈ (moveTask st id s pos cv actor now).1.tasks) ∧
    (∀ u ∈ st.tasks, u.id ≠ id → ¬(u.status = s ∧ pos ≤ u.position ∧ u.isArchived = false) →
      u ∈ (moveTask st id s pos cv actor now).1.tasks) := by
  obtain ⟨ha, hg, ht'⟩ := moveTask_ok_elim hfind hok
  have heq := moveTask_noConflict_eq st id s pos cv actor now t hfind ha hg
  have hid : t.id = id := findTask_id hfind
  have hsid : (bumpIfModified t { t with status := s, position := pos, lastModifiedBy := some actor } now).id = id := by
    rw [bumpIfModified_id]
    exact hid
  refine ⟨?_, ?_, ?_, ?_⟩
  · rw [ht']
    exact bumpIfModified_position t { t with status := s, position := pos, lastModifiedBy := some actor } now
  · rw [ht']
    exact bumpIfModified_status t { t with status := s, position := pos, lastModifiedBy := some actor } now
  · intro u hu hne hstatu harchu hposu
    rw [heq]
    have hu1 : u ∈ putTask st.tasks (bumpIfModified t { t with status := s, position := pos, lastModifiedBy := some actor } now) := by
      unfold putTask
      have hkeep : (if u.id = (bumpIfModified t { t with status := s, position := pos, lastModifiedBy := some actor } now).id
          then bumpIfModified t { t with status := s, position := pos, lastModifiedBy := some actor } now
          else u) = u := by
        rw [if_neg]
        rw [hsid]
        exact hne
      rw [← hkeep]
      exact List.mem_map_of_mem _ hu
    have hfu : (fun uu => if decide (uu.id ≠ id ∧ uu.status = s ∧ uu.position ≥ pos ∧ uu.isArchived = false)
        then { uu with position := uu.position + 1 } else uu) u = { u with position := u.position + 1 } := by
      dsimp only
      rw [if_pos]
      exact decide_eq_true ⟨hne, hstatu, hposu, harchu⟩
    exact hfu ▸ List.mem_map_of_mem _ hu1
  · intro u hu hne hnot
    rw [heq]
    have hu1 : u ∈ putTask st.tasks (bumpIfModified t { t with status := s, position := pos, lastModifiedBy := some actor } now) := by
      unfold putTask
      have hkeep : (if u.id = (bumpIfModified t { t with status := s, position := pos, lastModifiedBy := some actor } now).id
          then bumpIfModified t { t with status := s, position := pos, lastModifiedBy := some actor } now
          else u) = u := by
        rw [if_neg]
        rw [hsid]
        exact hne
      rw [← hkeep]
      exact List.mem_map_of_mem _ hu
    have hfu : (fun uu => if decide (uu.id ≠ id ∧ uu.status = s ∧ uu.position ≥ pos ∧ uu.isArchived = false)
        then { uu with position := uu.position + 1 } else uu) u = u := by
      dsimp only
      rw [if_neg]
      intro hdec
      have hprop := of_decide_eq_true hdec
      exact hnot ⟨hprop.2.1, hprop.2.2.1, hprop.2.2.2⟩
    exact hfu ▸ List.mem_map_of_mem _ hu1

/-- Witness for C4 at the two-task column. -/
theorem moveTask_renumber_witness :
    tTwoSaved.position = 1 ∧ tTwoSaved.status = Status.todo :=
  ⟨(moveTask_renumber stTwoCol 1 Status.todo 1 (some 1) 5 30 baseTask tTwoSaved rfl rfl).1,
   (moveTask_renumber stTwoCol 1 Status.todo 1 (some 1) 5 30 baseTask tTwoSaved rfl rfl).2.1⟩

/-- Counterexample to C4 as stated: moving the head task of column
[Alpha@0, Beta@1] to position 1 of the same column leaves positions [1, 2],
which is not a permutation of 0..1. -/
theorem moveTask_permutation_counterexample :
    columnPositions (moveTask stTwoCol 1 Status.todo 1 (some 1) 5 30).1 Status.todo = [1, 2] ∧
    ¬ (columnPositions (moveTask stTwoCol 1 Status.todo 1 (some 1) 5 30).1 Status.todo).Perm [0, 1] :=
  ⟨rfl, by decide⟩

/-- Claim C7 (confirmed): the smart-assign selection is an active user of
minimum load, and every minimum-load active user is reachable by some draw. -/
theorem smartAssign_minLoad :
    (∀ (users : List User) (tasks : List Task) (r : Nat) (u : User),
      findUserWithFewestTasks users tasks r = some u →
      u ∈ findActiveUsers users ∧
      ∀ v ∈ findActiveUsers users,
        countActiveTasks tasks u.id ≤ countActiveTasks tasks v.id) ∧
    (∀ (users : List User) (tasks : List Task) (r : Nat),
      findActiveUsers users ≠ [] →
      ∃ u, findUserWithFewestTasks users tasks r = some u) ∧
    (∀ (users : List User) (tasks : List Task) (u : User),
      u ∈ findActiveUsers users →
      (∀ v ∈ findActiveUsers users,
        countActiveTasks tasks u.id ≤ countActiveTasks tasks v.id) →
      ∃ r, findUserWithFewestTasks users tasks r = some u) := by
  refine ⟨?_, ?_, ?_⟩
  · intro users tasks r u hsel
    unfold findUserWithFewestTasks at hsel
    cases hA : findActiveUsers users with
    | nil =>
      rw [hA] at hsel
      simp at hsel
    | cons a as =>
      rw [hA] at hsel
      simp only [List.isEmpty_cons, Bool.false_eq_true, if_false] at hsel
      rcases Option.map_eq_some'.mp hsel with ⟨p, hget, hpu⟩
      have hpmem := List.get?_mem hget
      obtain ⟨hpc, hpmc'⟩ := List.mem_filter.mp hpmem
      have hpmc : p.2 = minimumOf
          (((a :: as).map (fun w => (w, countActiveTasks tasks w.id))).map Prod.snd) :=
        of_decide_eq_true hpmc'
      rcases List.mem_map.mp hpc with ⟨w, hw, hpw⟩
      constructor
      · rw [← hpu, ← hpw]
        exact hw
      · intro v hv
        have hvc : countActiveTasks tasks v.id ∈
            ((a :: as).map (fun w => (w, countActiveTasks tasks w.id))).map Prod.snd := by
          have h1 : (v, countActiveTasks tasks v.id) ∈
              (a :: as).map (fun w => (w, countActiveTasks tasks w.id)) :=
            List.mem_map_of_mem _ hv
          exact List.mem_map_of_mem Prod.snd h1
        have hmin := minimumOf_le_of_mem hvc
        have hcu : countActiveTasks tasks u.id = p.2 := by
          rw [← hpu, ← hpw]
        rw [hcu, hpmc]
        exact hmin
  · intro users tasks r hAne
    unfold findUserWithFewestTasks
    cases hA : findActiveUsers users with
    | nil => exact absurd hA hAne
    | cons a as =>
      simp only [List.isEmpty_cons, Bool.false_eq_true, if_false]
      have hmne : ((a :: as).map (fun w => (w, countActiveTasks tasks w.id))).filter
          (fun p => decide (p.2 = minimumOf
            (((a :: as).map (fun w => (w, countActiveTasks tasks w.id))).map Prod.snd))) ≠ [] := by
        have hcne : ((a :: as).map (fun w => (w, countActiveTasks tasks w.id))).map Prod.snd ≠ [] := by
          simp
        have hmem := minimumOf_mem hcne
        rcases List.mem_map.mp hmem with ⟨p, hpc, hps⟩
        exact List.ne_nil_of_mem (List.mem_filter.mpr ⟨hpc, decide_eq_true hps⟩)
      have hlen : 0 < (((a :: as).map (fun w => (w, countActiveTasks tasks w.id))).filter
          (fun p => decide (p.2 = minimumOf
            (((a :: as).map (fun w => (w, countActiveTasks tasks w.id))).map Prod.snd)))).length :=
        List.length_pos.mpr hmne
      have hlt := Nat.mod_lt r hlen
      have hget := List.get?_eq_get hlt
      rw [hget]
      exact ⟨_, rfl⟩
  · intro users tasks u hu hmin
    cases hA : findActiveUsers users with
    | nil =>
      rw [hA] at hu
      cases hu
    | cons a as =>
      rw [hA] at hu hmin
      have hcu : (u, countActiveTasks tasks u.id) ∈
          (a :: as).map (fun w => (w, countActiveTasks tasks w.id)) :=
        List.mem_map_of_mem _ hu
      have hle : minimumOf (((a :: as).map (fun w => (w, countActiveTasks tasks w.id))).map Prod.snd)
          ≤ countActiveTasks tasks u.id :=
        minimumOf_le_of_mem (List.mem_map_of_mem Prod.snd hcu)
      have hge : countActiveTasks tasks u.id ≤
          minimumOf (((a :: as).map (fun w => (w, countActiveTasks tasks w.id))).map Prod.snd) := by
        have hcne : ((a :: as).map (fun w => (w, countActiveTasks tasks w.id))).map Prod.snd ≠ [] := by
          simp
        have hmem := minimumOf_mem hcne
        rcases List.mem_map.mp hmem with ⟨p, hpc, hps⟩
        rcases List.mem_map.mp hpc with ⟨w, hw, hpw⟩
        rw [← hps, ← hpw]
        exact hmin w hw
      have heq := le_antisymm hge hle
      have humem : (u, countActiveTasks tasks u.id) ∈
          ((a :: as).map (fun w => (w, countActiveTasks tasks w.id))).filter
            (fun p => decide (p.2 = minimumOf
              (((a :: as).map (fun w => (w, countActiveTasks tasks w.id))).map Prod.snd))) :=
        List.mem_filter.mpr ⟨hcu, decide_eq_true heq⟩
      rcases List.mem_iff_get.mp humem with ⟨⟨i, hi⟩, hgeti⟩
      refine ⟨i, ?_⟩
      unfold findUserWithFewestTasks
      rw [hA]
      simp only [List.isEmpty_cons, Bool.false_eq_true, if_false]
      have hmod : i % (((a :: as).map (fun w => (w, countActiveTasks tasks w.id))).filter
          (fun p => decide (p.2 = minimumOf
            (((a :: as).map (fun w => (w, countActiveTasks tasks w.id))).map Prod.snd)))).length = i :=
        Nat.mod_eq_of_lt hi
      rw [hmod]
      rw [List.get?_eq_get hi]
      rw [hgeti]
      rfl

/-- Witness for C7: with user 8 unloaded and user 9 loaded, the selection is
user 8, whose load is no larger than user 9's. -/
theorem smartAssign_minLoad_witness :
    demoMinUser ∈ findActiveUsers demoUsers ∧
    countActiveTasks demoTasks demoMinUser.id ≤ countActiveTasks demoTasks strangerUser.id :=
  ⟨(smartAssign_minLoad.1 demoUsers demoTasks 0 demoMinUser rfl).1,
   (smartAssign_minLoad.1 demoUsers demoTasks 0 demoMinUser rfl).2 strangerUser (by decide)⟩

/-- Claim C8 (corrected): with no active user, smartAssignTask answers the
generic 500 of the catch-all handler and leaves the state unchanged. -/
theorem smartAssign_noActive_internalError (st : BoardState) (id : Nat)
    (cv : Option Nat) (actor r now : Nat) (t : Task)
    (hfind : findTask st id = some t) (harch : t.isArchived = false)
    (hg : conflictGuard t cv = false)
    (hactive : findActiveUsers st.users = []) :
    smartAssignTask st id cv actor r now =
      (st, Response.internalError "Error in smart assign") := by
  unfold smartAssignTask
  rw [hfind]
  dsimp only
  rw [harch]
  simp only [Bool.false_eq_true, if_false]
  rw [hg]
  simp only [Bool.false_eq_true, if_false]
  have hnone : findUserWithFewestTasks st.users st.tasks r = none := by
    unfold findUserWithFewestTasks
    rw [hactive]
    simp
  rw [hnone]

/-- Witness for C8 at the fixture whose only user is inactive. -/
theorem smartAssign_noActive_internalError_witness :
    smartAssignTask stNoActive 1 none 9 0 60 =
      (stNoActive, Response.internalError "Error in smart assign") :=
  smartAssign_noActive_internalError stNoActive 1 none 9 0 60 baseTask rfl rfl rfl rfl

/-- Counterexample to C8 as stated: the failure kind is the generic
internal error, not NoEligibleUser. -/
theorem smartAssign_noActive_counterexample :
    (smartAssignTask stNoActive 1 none 9 0 60).2 =
      Response.internalError "Error in smart assign" ∧
    (smartAssignTask stNoActive 1 none 9 0 60).1 = stNoActive ∧
    Response.internalError "Error in smart assign" ≠ Response.noEligibleUser :=
  ⟨rfl, rfl, by decide⟩

/-- Claim C9 (corrected): deleteTask enforces creator-or-admin and fails
with 403 otherwise, leaving the state unchanged; archiveTask performs no
authorization check and succeeds for every actor on a non-archived task. -/
theorem delete_archive_authorization :
    (∀ (st : BoardState) (id : Nat) (actorU : User) (t : Task),
      findTask st id = some t → t.isArchived = false →
      t.createdBy ≠ actorU.id → actorU.role ≠ "admin" →
      deleteTask st id actorU =
        (st, Response.forbidden "You can only delete tasks you created")) ∧
    (∀ (st : BoardState) (id : Nat) (actorU : User) (t : Task),
      findTask st id = some t → t.isArchived = false →
      (t.createdBy = actorU.id ∨ actorU.role = "admin") →
      (deleteTask st id actorU).2 = Response.okMessage "Task deleted successfully") ∧
    (∀ (st : BoardState) (id : Nat) (actorU : User) (t : Task) (now : Nat),
      findTask st id = some t → t.isArchived = false →
      (archiveTask st id actorU now).2 = Response.okMessage "Task archived successfully") := by
  refine ⟨?_, ?_, ?_⟩
  · intro st id actorU t hfind harch hc hr
    unfold deleteTask
    rw [hfind]
    dsimp only
    rw [harch]
    simp only [Bool.false_eq_true, if_false]
    have hcond : (decide (t.createdBy ≠ actorU.id) && decide (actorU.role ≠ "admin")) = true := by
      simp [hc, hr]
    rw [hcond]
    simp
  · intro st id actorU t hfind harch hor
    unfold deleteTask
    rw [hfind]
    dsimp only
    rw [harch]
    simp only [Bool.false_eq_true, if_false]
    have hcond : (decide (t.createdBy ≠ actorU.id) && decide (actorU.role ≠ "admin")) = false := by
      rcases hor with h | h <;> simp [h]
    rw [hcond]
    simp
  · intro st id actorU t now hfind harch
    unfold archiveTask
    rw [hfind]
    dsimp only
    rw [harch]
    simp only [Bool.false_eq_true, if_false]

/-- Witness for C9: the stranger is refused deletion of the base task but
the creator deletes it; the stranger archives it without any check. -/
theorem delete_archive_authorization_witness :
    deleteTask stComment 1 strangerUser =
      (stComment, Response.forbidden "You can only delete tasks you created") ∧
    (archiveTask stComment 1 strangerUser 70).2 =
      Response.okMessage "Task archived successfully" :=
  ⟨delete_archive_authorization.1 stComment 1 strangerUser baseTask rfl rfl
      (by decide) (by decide),
   delete_archive_authorization.2.2 stComment 1 strangerUser baseTask 70 rfl rfl⟩

/-- Counterexample to C9 as stated: a non-creator non-admin successfully
archives the task instead of being rejected with Forbidden. -/
theorem archive_noAuth_counterexample :
    baseTask.createdBy = 5 ∧ strangerUser.id = 9 ∧ strangerUser.role = "member" ∧
    (archiveTask stComment 1 strangerUser 70).2 =
      Response.okMessage "Task archived successfully" :=
  ⟨rfl, rfl, rfl, rfl⟩

/-- Claim C10 (confirmed): a falsy version (absent field or 0) makes every
one of the four guarded mutations skip conflict detection: none of them can
answer 409, and assignTask applies the mutation whatever the server
version is. -/
theorem falsy_version_bypasses_conflict :
    (∀ (st : BoardState) (id : Nat) (p : UpdatePatch) (actor : Nat) (uuid : String)
        (now : Nat) (info : ConflictInfo), (p.version = none ∨ p.version = some 0) →
      (updateTask st id p actor uuid now).2 ≠ Response.conflict info) ∧
    (∀ (st : BoardState) (id : Nat) (s : Status) (pos : Int) (cv : Option Nat)
        (actor now : Nat) (info : ConflictInfo), (cv = none ∨ cv = some 0) →
      (moveTask st id s pos cv actor now).2 ≠ Response.conflict info) ∧
    (∀ (st : BoardState) (id : Nat) (cv : Option Nat) (actor r now : Nat)
        (info : ConflictInfo), (cv = none ∨ cv = some 0) →
      (smartAssignTask st id cv actor r now).2 ≠ Response.conflict info) ∧
    (∀ (st : BoardState) (id a : Nat) (cv : Option Nat) (actor now : Nat)
        (info : ConflictInfo), (cv = none ∨ cv = some 0) →
      (assignTask st id a cv actor now).2 ≠ Response.conflict info) ∧
    (∀ (st : BoardState) (id a : Nat) (cv : Option Nat) (actor now : Nat) (t : Task),
      findTask st id = some t → t.isArchived = false →
      (cv = none ∨ cv = some 0) →
      ((st.users.find? (fun u => decide (u.id = a))).any (fun u => u.isActive)) = true →
      (assignTask st id a cv actor now).2 =
        Response.ok (bumpIfModified t
          { t with assignedTo := some a, lastModifiedBy := some actor } now)) := by
  refine ⟨?_, ?_, ?_, ?_, ?_⟩
  · intro st id p actor uuid now info hfalsy
    unfold updateTask
    cases hf : findTask st id with
    | none => simp
    | some t =>
      dsimp only
      rw [conflictGuard_of_falsy hfalsy]
      simp only [Bool.false_eq_true, if_false]
      split
      · simp
      · split
        · simp
        · split
          · simp
          · split
            · simp
            · simp
  · intro st id s pos cv actor now info hfalsy
    unfold moveTask
    cases hf : findTask st id with
    | none => simp
    | some t =>
      dsimp only
      rw [conflictGuard_of_falsy hfalsy]
      simp only [Bool.false_eq_true, if_false]
      split
      · simp
      · simp
  · intro st id cv actor r now info hfalsy
    unfold smartAssignTask
    cases hf : findTask st id with
    | none => simp
    | some t =>
      dsimp only
      rw [conflictGuard_of_falsy hfalsy]
      simp only [Bool.false_eq_true, if_false]
      split
      · simp
      · cases findUserWithFewestTasks st.users st.tasks r with
        | none => simp
        | some sel => simp
  · intro st id a cv actor now info hfalsy
    unfold assignTask
    cases hf : findTask st id with
    | none => simp
    | some t =>
      dsimp only
      rw [conflictGuard_of_falsy hfalsy]
      simp only [Bool.false_eq_true, if_false]
      split
      · simp
      · split
        · simp
        · simp
  · intro st id a cv actor now t hfind harch hfalsy huser
    unfold assignTask
    rw [hfind]
    dsimp only
    rw [harch]
    simp only [Bool.false_eq_true, if_false]
    rw [conflictGuard_of_falsy hfalsy]
    simp only [Bool.false_eq_true, if_false]
    rw [huser]
    simp

/-- Witness for C10: assigning without a version field succeeds although the
request carries no version at all. -/
theorem falsy_version_bypasses_conflict_witness :
    (assignTask stAssign 1 9 none 5 100).2 =
      Response.ok (bumpIfModified baseTask
        { baseTask with assignedTo := some 9, lastModifiedBy := some 5 } 100) :=
  falsy_version_bypasses_conflict.2.2.2.2 stAssign 1 9 none 5 100 baseTask rfl rfl
    (Or.inl rfl) rfl

end TaskBoard
